import Mathlib

/-!
# Shallow embedding of the Hacker News "newest" sort-order validator

This file embeds the core collection-and-validation pipeline of
`src/index.js`:

* time normalization (`parseIsoTimestamp`, `parseRelativeAgeToTimestamp`,
  `toTimestamp`, `enrichArticlesWithTimestamps`);
* the two validation checks (`checkTimestampsParsable`,
  `checkSortedNewestToOldest`) and their composition (`validateArticles`);
* the bounded pagination collector (`withRetry`, `getFirstNArticles`);
* the report builder (`buildResultObject`).

Modelling conventions:

* JS strings are `List Char`; JS `number`-or-`NaN` timestamp results are
  `Option Int` (`none` plays the role of `NaN`, `Number.isNaN t` becomes
  `t = none`).
* The external collaborators (browser page reading / navigation, `Date.parse`,
  and the serialization-side formatters `Date#toISOString` / `toFixed`) are
  out of scope per the spec; they appear as explicit function parameters
  (`scrape`, `nav`, `dateParse`, `isoStr`, `fixed2`), so every theorem holds
  for an arbitrary collaborator behaviour.
* All functions are total Lean functions, matching the source's
  "never throws" normalization/validation contract.
-/

/-- JS regex class `\d` = `[0-9]`. -/
def isDigitChar (c : Char) : Bool :=
  48 ≤ c.toNat && c.toNat ≤ 57

/-- JS regex class `\s` (whitespace, incl. the Unicode space characters). -/
def isSpaceChar (c : Char) : Bool :=
  c.toNat = 32 || c.toNat = 9 || c.toNat = 10 || c.toNat = 11 ||
  c.toNat = 12 || c.toNat = 13 || c.toNat = 160 || c.toNat = 0x1680 ||
  (0x2000 ≤ c.toNat && c.toNat ≤ 0x200a) || c.toNat = 0x2028 ||
  c.toNat = 0x2029 || c.toNat = 0x202f || c.toNat = 0x205f ||
  c.toNat = 0x3000 || c.toNat = 0xfeff

/-- JS regex class `\w` = `[A-Za-z0-9_]`. -/
def isWordChar (c : Char) : Bool :=
  (65 ≤ c.toNat && c.toNat ≤ 90) || (97 ≤ c.toNat && c.toNat ≤ 122) ||
  (48 ≤ c.toNat && c.toNat ≤ 57) || c.toNat = 95

/--
Attempt to match the regex `(\d+)\s+(\w+)` anchored at the start of `s`,
returning the two capture groups.  Because `\d ⊆ \w` and `\s` is disjoint
from both `\d` and `\w`, the backtracking JS engine succeeds at a position
iff greedy maximal-munch succeeds there, with exactly these captures.
-/
def matchTwo (s : List Char) : Option (List Char × List Char) :=
  let ds := s.takeWhile isDigitChar
  let rest1 := s.dropWhile isDigitChar
  if ds.isEmpty then none
  else
    let sp := rest1.takeWhile isSpaceChar
    let rest2 := rest1.dropWhile isSpaceChar
    if sp.isEmpty then none
    else
      let ws := rest2.takeWhile isWordChar
      if ws.isEmpty then none else some (ds, ws)

/--
`String.prototype.match` with regex `(\d+)\s+(\w+)` (no `g` flag): the
leftmost position at which the pattern matches, with its capture groups.
-/
def findTwo : List Char → Option (List Char × List Char)
  | [] => none
  | c :: cs =>
    match matchTwo (c :: cs) with
    | some r => some r
    | none => findTwo cs

/-- JS `Number(...)` on a string of decimal digits. -/
def digitsVal (ds : List Char) : Nat :=
  ds.foldl (fun acc c => acc * 10 + (c.toNat - 48)) 0

/-- JS `String.prototype.startsWith`: is `p` a leading segment of `s`? -/
def listStartsWith : List Char → List Char → Bool
  | [], _ => true
  | _ :: _, [] => false
  | p :: ps, c :: cs => p == c && listStartsWith ps cs

/-- JS `String.prototype.toLowerCase` (ASCII letters; the unit words are ASCII). -/
def toLowerList (s : List Char) : List Char :=
  s.map Char.toLower

/--
`parseRelativeAgeToTimestamp(ageText, nowMs)` from `src/index.js`:
match `(\d+)\s+(\w+)`, map the unit word by prefix to a seconds multiplier,
and return `nowMs - secondsAgo * 1000`; unknown units are unparsable (`none`).
-/
def parseRelativeAgeToTimestamp (ageText : List Char) (nowMs : Int) : Option Int :=
  match findTwo ageText with
  | none => none
  | some (ds, w) =>
    let value : Nat := digitsVal ds
    let unit : List Char := toLowerList w
    let secondsAgoOpt : Option Nat :=
      if listStartsWith "second".data unit then some value
      else if listStartsWith "minute".data unit then some (value * 60)
      else if listStartsWith "hour".data unit then some (value * 60 * 60)
      else if listStartsWith "day".data unit then some (value * 24 * 60 * 60)
      else none
    match secondsAgoOpt with
    | none => none
    | some secondsAgo => some (nowMs - ((secondsAgo * 1000 : Nat) : Int))

/--
The unit-word-to-seconds table of `parseRelativeAgeToTimestamp`, factored out
for specification purposes: `second*` → 1, `minute*` → 60, `hour*` → 3600,
`day*` → 86400, anything else unparsable.
-/
def relUnitSeconds (unit : List Char) : Option Nat :=
  if listStartsWith "second".data unit then some 1
  else if listStartsWith "minute".data unit then some 60
  else if listStartsWith "hour".data unit then some 3600
  else if listStartsWith "day".data unit then some 86400
  else none

/--
`parseIsoTimestamp(iso)` from `src/index.js`.  `dateParse` is the external
`Date.parse` collaborator (`none` = `NaN`).  A falsy `iso` (absent or the
empty string) is rejected before `Date.parse` is consulted.
-/
def parseIsoTimestamp (dateParse : List Char → Option Int) :
    Option (List Char) → Option Int
  | none => none
  | some s => if s.isEmpty then none else dateParse s

/-- A raw scraped article: `{ title, ageText, ageISO }`. -/
structure Article where
  title : List Char
  ageText : List Char
  ageISO : Option (List Char)
  deriving Repr, DecidableEq

/--
`toTimestamp(article, nowMs)` from `src/index.js`: ISO hint first, then the
relative-age text, otherwise `NaN` (modelled as `none`).
-/
def toTimestamp (dateParse : List Char → Option Int) (a : Article)
    (nowMs : Int) : Option Int :=
  match parseIsoTimestamp dateParse a.ageISO with
  | some t => some t
  | none =>
    match parseRelativeAgeToTimestamp a.ageText nowMs with
    | some t => some t
    | none => none

/-- An enriched article: raw fields plus 1-based `index` and `timestamp`. -/
structure Detail where
  index : Nat
  title : List Char
  ageText : List Char
  ageISO : Option (List Char)
  timestamp : Option Int
  deriving Repr, DecidableEq

/-- `enrichArticlesWithTimestamps(articles, nowMs)` from `src/index.js`. -/
def enrichArticlesWithTimestamps (dateParse : List Char → Option Int)
    (articles : List Article) (nowMs : Int) : List Detail :=
  articles.mapIdx fun index a =>
    { index := index + 1
      title := a.title
      ageText := a.ageText
      ageISO := a.ageISO
      timestamp := toTimestamp dateParse a nowMs }

/-- Result shape `{ ok, problems }` shared by the two checks. -/
structure CheckResult where
  ok : Bool
  problems : List (List Char)
  deriving Repr, DecidableEq

/-- Decimal rendering of a number used in the template literals. -/
def natStr (n : Nat) : List Char :=
  (Nat.repr n).data

/-- The problem string pushed by `checkTimestampsParsable` for one article. -/
def unparsableMsg (d : Detail) : List Char :=
  "Unparsable timestamp for article #".data ++ natStr d.index ++
  ": \"".data ++ d.title ++ "\" (".data ++ d.ageText ++
  ", ISO: ".data ++ (d.ageISO.getD "none".data) ++ ")".data

/-- `checkTimestampsParsable(details)` from `src/index.js`: one problem per
`NaN` timestamp; never aborts iteration. -/
def checkTimestampsParsable (details : List Detail) : CheckResult :=
  let problems := details.filterMap fun d =>
    match d.timestamp with
    | none => some (unparsableMsg d)
    | some _ => none
  { ok := problems.isEmpty, problems := problems }

/-- The problem string pushed by `checkSortedNewestToOldest` for a violating
adjacent pair. -/
def orderingMsg (prev curr : Detail) : List Char :=
  "Ordering issue between #".data ++ natStr prev.index ++
  " and #".data ++ natStr curr.index ++ ": \"".data ++ prev.title ++
  "\" (".data ++ prev.ageText ++ ") appears before \"".data ++ curr.title ++
  "\" (".data ++ curr.ageText ++ "), but has an *older* timestamp.".data

/--
The scan of `checkSortedNewestToOldest`: walk adjacent pairs carrying the
previous item; skip a pair when either side is `NaN`; on the first strict
increase push one problem and stop (the `break`).
-/
def sortScan : Detail → List Detail → List (List Char)
  | _, [] => []
  | prev, curr :: rest =>
    match prev.timestamp, curr.timestamp with
    | some p, some c =>
      if p < c then [orderingMsg prev curr] else sortScan curr rest
    | _, _ => sortScan curr rest

/-- `checkSortedNewestToOldest(details)` from `src/index.js`. -/
def checkSortedNewestToOldest (details : List Detail) : CheckResult :=
  let problems :=
    match details with
    | [] => []
    | d :: ds => sortScan d ds
  { ok := problems.isEmpty, problems := problems }

/-- Result shape of `validateArticles`. -/
structure ValidationResult where
  isSorted : Bool
  details : List Detail
  problems : List (List Char)
  deriving Repr, DecidableEq

/-- `validateArticles(articles, nowMs)` from `src/index.js`: enrich, run both
checks, concatenate their problem lists. -/
def validateArticles (dateParse : List Char → Option Int)
    (articles : List Article) (nowMs : Int) : ValidationResult :=
  let details := enrichArticlesWithTimestamps dateParse articles nowMs
  let parseCheck := checkTimestampsParsable details
  let sortCheck := checkSortedNewestToOldest details
  { isSorted := parseCheck.ok && sortCheck.ok
    details := details
    problems := parseCheck.problems ++ sortCheck.problems }

/-- `EXPECTED_ARTICLE_COUNT` from `src/index.js`. -/
def EXPECTED_ARTICLE_COUNT : Nat := 200

/-- `MAX_PAGES_TO_VISIT` from `src/index.js`. -/
def MAX_PAGES_TO_VISIT : Nat := 10

/--
`withRetry(fn, { attempts })` from `src/index.js`: try `fn` on attempts
`i, i+1, ...` while `left` attempts remain; return the first success, or the
final error once all attempts are spent.  `fn` is indexed by the 1-based
attempt number, as in the source's loop counter.
-/
def withRetryGo {α : Type} (fn : Nat → Except (List Char) α) :
    Nat → Nat → Except (List Char) α
  | _, 0 => Except.error "[Retry] operation failed after all attempts".data
  | i, Nat.succ left =>
    match fn i with
    | Except.ok a => Except.ok a
    | Except.error _ => withRetryGo fn (i + 1) left

/-- `withRetry` entry point: attempts are numbered from 1. -/
def withRetry {α : Type} (fn : Nat → Except (List Char) α)
    (attempts : Nat) : Except (List Char) α :=
  withRetryGo fn 1 attempts

/--
The `while` loop of `getFirstNArticles(page, n)` from `src/index.js`.

The external collaborators are `scrape k` (articles returned by
`scrapeArticlesOnPage` on the `k`-th visited page, `k` 0-based; a selector
timeout surfaces as `[]`) and `nav k i` (whether the `i`-th attempt of
`navigateToNextPage` away from page `k` succeeds).

Loop body, faithful to the source: while fewer than `n` articles are
accumulated, bump `pagesVisited`; stop if it exceeds `maxPages`; scrape;
stop on an empty page; append; stop when the target is reached; advance with
`withRetry(..., { attempts: 2 })` and stop if that fails.  The fuel argument
only bounds recursion; calls use fuel `maxPages + 1`, which the
`maxPages < pv + 1` guard makes sufficient, so the fuel-exhaustion branch
returns the same "stop now" result as the loop's breaks.
-/
def collectGo (scrape : Nat → List Article) (nav : Nat → Nat → Bool)
    (n maxPages : Nat) : Nat → Nat → List Article → List Article × Nat
  | 0, pv, acc => (acc, pv)
  | Nat.succ fuel, pv, acc =>
    if acc.length < n then
      if maxPages < pv + 1 then (acc, pv + 1)
      else
        let pageArticles := scrape pv
        if pageArticles.length = 0 then (acc, pv + 1)
        else
          let acc2 := acc ++ pageArticles
          if n ≤ acc2.length then (acc2, pv + 1)
          else
            match withRetry
                (fun i => if nav pv i then Except.ok ()
                          else Except.error "pagination navigation failed".data)
                2 with
            | Except.ok _ => collectGo scrape nav n maxPages fuel (pv + 1) acc2
            | Except.error _ => (acc2, pv + 1)
    else (acc, pv)

/--
`getFirstNArticles(page, n)` from `src/index.js`: run the collection loop
from an empty accumulator, then keep only the first `n` articles.  Also
returns the final `pagesVisited` counter (the spec's `CollectionResult`).
-/
def getFirstNArticles (scrape : Nat → List Article) (nav : Nat → Nat → Bool)
    (n maxPages : Nat) : List Article × Nat :=
  let r := collectGo scrape nav n maxPages (maxPages + 1) 0 []
  (r.1.take n, r.2)

/-- One entry of the report's `sampleArticles` lists. -/
structure SampleEntry where
  position : Int
  title : List Char
  age : List Char
  deriving Repr, DecidableEq

/-- The report's `statistics` object.  The `Date#toISOString` / `toFixed(2)`
renderings are produced by the abstract formatters `isoStr` / `fixed2`. -/
structure ReportStats where
  oldestTimestamp : List Char
  newestTimestamp : List Char
  timeSpanHours : List Char
  unparsableCount : Nat
  deriving Repr, DecidableEq

/-- The report's `meta` object. -/
structure ReportMeta where
  startedAt : List Char
  finishedAt : List Char
  durationMs : Int
  durationSeconds : List Char
  expectedCount : Nat
  actualCount : Nat
  deriving Repr, DecidableEq

/-- The report's `validation` object. -/
structure ReportValidation where
  passed : Bool
  isSorted : Bool
  problemCount : Nat
  problems : List (List Char)
  deriving Repr, DecidableEq

/-- The report's `sampleArticles` object. -/
structure SampleArticles where
  first5 : List SampleEntry
  last3 : List SampleEntry
  deriving Repr, DecidableEq

/-- The full report object. -/
structure Report where
  meta : ReportMeta
  validation : ReportValidation
  statistics : Option ReportStats
  sampleArticles : SampleArticles
  deriving Repr, DecidableEq

/--
`buildResultObject({articles, validationResult, startedAt, finishedAt})` from
`src/index.js`.  `isoStr` is the external `new Date(ms).toISOString()`
formatter and `fixed2` the external `Number#toFixed(2)` formatter (pure
serialization-side collaborators).  `Math.min/Math.max` over the spread
timestamp array are left folds of `min`/`max` over the parsable timestamps;
`articles.slice(-3)` is `drop (length - 3)` (`Nat` subtraction truncates at 0
exactly as `slice` clamps a negative start index).
-/
def buildResultObject (isoStr : Int → List Char) (fixed2 : ℚ → List Char)
    (articles : List Article) (validationResult : ValidationResult)
    (startedAt finishedAt : Int) : Report :=
  let timestamps : List Int :=
    (validationResult.details.map fun d => d.timestamp).filterMap id
  let stats : Option ReportStats :=
    match timestamps with
    | [] => none
    | t :: ts =>
      some
        { oldestTimestamp := isoStr (ts.foldl min t)
          newestTimestamp := isoStr (ts.foldl max t)
          timeSpanHours :=
            fixed2 ((((ts.foldl max t) - (ts.foldl min t) : Int) : ℚ) /
              (1000 * 60 * 60))
          unparsableCount :=
            (validationResult.details.filter fun d => d.timestamp.isNone).length }
  { meta :=
      { startedAt := isoStr startedAt
        finishedAt := isoStr finishedAt
        durationMs := finishedAt - startedAt
        durationSeconds := fixed2 (((finishedAt - startedAt : Int) : ℚ) / 1000)
        expectedCount := EXPECTED_ARTICLE_COUNT
        actualCount := articles.length }
    validation :=
      { passed := validationResult.isSorted
        isSorted := validationResult.isSorted
        problemCount := validationResult.problems.length
        problems := validationResult.problems }
    statistics := stats
    sampleArticles :=
      { first5 :=
          (articles.take 5).mapIdx fun i a =>
            { position := (i : Int) + 1, title := a.title, age := a.ageText }
        last3 :=
          (articles.drop (articles.length - 3)).mapIdx fun i a =>
            { position := (articles.length : Int) - 2 + (i : Int)
              title := a.title
              age := a.ageText } } }

/-! ## Helper lemmas -/

theorem takeWhile_append_all {p : Char → Bool} {xs : List Char}
    (ys : List Char) (h : ∀ x ∈ xs, p x = true) :
    (xs ++ ys).takeWhile p = xs ++ ys.takeWhile p := by
  induction xs with
  | nil => simp
  | cons x xs ih =>
    have hx : p x = true := h x (List.mem_cons_self x xs)
    simp only [List.cons_append, List.takeWhile_cons, hx, if_true]
    rw [ih fun c hc => h c (List.mem_cons_of_mem x hc)]

theorem dropWhile_append_all {p : Char → Bool} {xs : List Char}
    (ys : List Char) (h : ∀ x ∈ xs, p x = true) :
    (xs ++ ys).dropWhile p = ys.dropWhile p := by
  induction xs with
  | nil => simp
  | cons x xs ih =>
    have hx : p x = true := h x (List.mem_cons_self x xs)
    simp only [List.cons_append, List.dropWhile_cons, hx, if_true]
    exact ih fun c hc => h c (List.mem_cons_of_mem x hc)

theorem word_not_space {c : Char} (h : isWordChar c = true) :
    isSpaceChar c = false := by
  cases hs : isSpaceChar c with
  | false => rfl
  | true =>
    exfalso
    simp only [isWordChar, Bool.or_eq_true, Bool.and_eq_true,
      decide_eq_true_eq] at h
    simp only [isSpaceChar, Bool.or_eq_true, Bool.and_eq_true,
      decide_eq_true_eq] at hs
    omega

theorem matchTwo_structured {ds u : List Char} (tail : List Char)
    (hds : ds ≠ []) (hd : ∀ c ∈ ds, isDigitChar c = true)
    (hu : u ≠ []) (hw : ∀ c ∈ u, isWordChar c = true) :
    matchTwo (ds ++ ' ' :: (u ++ ' ' :: tail)) = some (ds, u) := by
  obtain ⟨v, u', rfl⟩ : ∃ v u', u = v :: u' := by
    cases u with
    | nil => exact absurd rfl hu
    | cons v u' => exact ⟨v, u', rfl⟩
  have hvs : isSpaceChar v = false :=
    word_not_space (hw v (List.mem_cons_self v u'))
  have h1 : (ds ++ ' ' :: (v :: u' ++ ' ' :: tail)).takeWhile isDigitChar
      = ds := by
    rw [takeWhile_append_all _ hd]
    simp [List.takeWhile_cons, show isDigitChar ' ' = false by decide]
  have h2 : (ds ++ ' ' :: (v :: u' ++ ' ' :: tail)).dropWhile isDigitChar
      = ' ' :: (v :: u' ++ ' ' :: tail) := by
    rw [dropWhile_append_all _ hd]
    simp [List.dropWhile_cons, show isDigitChar ' ' = false by decide]
  have h3 : (' ' :: (v :: u' ++ ' ' :: tail)).takeWhile isSpaceChar
      = [' '] := by
    simp [List.takeWhile_cons, show isSpaceChar ' ' = true by decide, hvs]
  have h4 : (' ' :: (v :: u' ++ ' ' :: tail)).dropWhile isSpaceChar
      = v :: u' ++ ' ' :: tail := by
    simp [List.dropWhile_cons, show isSpaceChar ' ' = true by decide, hvs]
  have h5 : (v :: u' ++ ' ' :: tail).takeWhile isWordChar = v :: u' := by
    rw [takeWhile_append_all _ hw]
    simp [List.takeWhile_cons, show isWordChar ' ' = false by decide]
  simp only [matchTwo, h1, h2, h3, h4, h5]
  simp [List.isEmpty_eq_true, hds]

theorem findTwo_structured {ds u : List Char} (tail : List Char)
    (hds : ds ≠ []) (hd : ∀ c ∈ ds, isDigitChar c = true)
    (hu : u ≠ []) (hw : ∀ c ∈ u, isWordChar c = true) :
    findTwo (ds ++ ' ' :: (u ++ ' ' :: tail)) = some (ds, u) := by
  obtain ⟨d, ds', rfl⟩ : ∃ d ds', ds = d :: ds' := by
    cases ds with
    | nil => exact absurd rfl hds
    | cons d ds' => exact ⟨d, ds', rfl⟩
  have hm := matchTwo_structured tail hds hd hu hw
  rw [List.cons_append]
  rw [List.cons_append] at hm
  simp only [findTwo, hm]


/-! ## Claims -/

/--
C1: for every item whose absolute-time hint is absent or does not parse and
whose relative-age text matches the pattern `N <unit> ago` with unit word
prefixed by second/minute/hour/day, normalization returns exactly
`now - N * unitSeconds * 1000`, where `unitSeconds` is 1, 60, 3600 or 86400
respectively and `now` is the shared reference time passed in.
-/
theorem relative_age_normalizes_exact
    (dateParse : List Char → Option Int) (a : Article) (nowMs : Int)
    (ds u : List Char) (m : Nat)
    (hiso : parseIsoTimestamp dateParse a.ageISO = none)
    (htext : a.ageText = ds ++ ' ' :: (u ++ ' ' :: "ago".data))
    (hds : ds ≠ []) (hd : ∀ c ∈ ds, isDigitChar c = true)
    (hw : ∀ c ∈ u, isWordChar c = true)
    (hm : relUnitSeconds (toLowerList u) = some m) :
    toTimestamp dateParse a nowMs =
      some (nowMs - ((digitsVal ds * m * 1000 : Nat) : Int)) := by
  have hu : u ≠ [] := by
    intro hnil
    rw [hnil] at hm
    have : relUnitSeconds (toLowerList []) = none := by decide
    rw [this] at hm
    exact Option.noConfusion hm
  have hfind := findTwo_structured "ago".data hds hd hu hw
  rw [toTimestamp, hiso]
  rw [parseRelativeAgeToTimestamp, htext, hfind]
  rw [relUnitSeconds] at hm
  by_cases h1 : listStartsWith "second".data (toLowerList u) = true
  · rw [if_pos h1] at hm
    simp only [h1, if_true]
    have : m = 1 := by exact (Option.some.injEq _ _).mp hm.symm
    subst this
    norm_num
  · rw [if_neg h1] at hm
    simp only [eq_false_of_ne_true h1, Bool.false_eq_true, if_false]
    by_cases h2 : listStartsWith "minute".data (toLowerList u) = true
    · rw [if_pos h2] at hm
      simp only [h2, if_true]
      have : m = 60 := by exact (Option.some.injEq _ _).mp hm.symm
      subst this
      norm_num
    · rw [if_neg h2] at hm
      simp only [eq_false_of_ne_true h2, Bool.false_eq_true, if_false]
      by_cases h3 : listStartsWith "hour".data (toLowerList u) = true
      · rw [if_pos h3] at hm
        simp only [h3, if_true]
        have : m = 3600 := by exact (Option.some.injEq _ _).mp hm.symm
        subst this
        norm_num
        ring_nf
      · rw [if_neg h3] at hm
        simp only [eq_false_of_ne_true h3, Bool.false_eq_true, if_false]
        by_cases h4 : listStartsWith "day".data (toLowerList u) = true
        · rw [if_pos h4] at hm
          simp only [h4, if_true]
          have : m = 86400 := by exact (Option.some.injEq _ _).mp hm.symm
          subst this
          norm_num
          ring_nf
        · rw [if_neg h4] at hm
          exact Option.noConfusion hm

/--
Witness for C1: `"5 minutes ago"` with no ISO hint and `now = 1000000`
normalizes to `1000000 - 5 * 60 * 1000 = 700000`.
-/
theorem relative_age_normalizes_exact_witness :
    parseIsoTimestamp (fun _ => none)
      (Article.mk "Launch".data "5 minutes ago".data none).ageISO = none ∧
    relUnitSeconds (toLowerList "minutes".data) = some 60 ∧
    toTimestamp (fun _ => none)
      (Article.mk "Launch".data "5 minutes ago".data none) 1000000 =
      some 700000 := by
  refine ⟨rfl, by decide, ?_⟩
  have h := relative_age_normalizes_exact (fun _ => none)
    (Article.mk "Launch".data "5 minutes ago".data none) 1000000
    "5".data "minutes".data 60 rfl (by decide) (by decide) (by decide)
    (by decide) (by decide)
  rw [h]
  decide

/--
C2: for every item that has an absolute time hint (and the hint parses),
normalization returns the value parsed from that hint and ignores the
relative-age text entirely — the statement holds for every `ageText` and
every `nowMs`, even when the two representations disagree.
-/
theorem absolute_hint_wins (dateParse : List Char → Option Int)
    (title ageText iso : List Char) (t nowMs : Int)
    (hparse : parseIsoTimestamp dateParse (some iso) = some t) :
    toTimestamp dateParse (Article.mk title ageText (some iso)) nowMs =
      some t := by
  rw [toTimestamp]
  show (match parseIsoTimestamp dateParse (some iso) with
        | some t => some t
        | none => _) = some t
  rw [hparse]

/--
Witness for C2: an ISO hint the collaborator parses as `1736084700000` wins
over a contradicting relative text `"999 days ago"`.
-/
theorem absolute_hint_wins_witness :
    parseIsoTimestamp
      (fun s => if s = "2025-01-05T13:45:00".data then some 1736084700000
                else none)
      (some "2025-01-05T13:45:00".data) = some 1736084700000 ∧
    toTimestamp
      (fun s => if s = "2025-01-05T13:45:00".data then some 1736084700000
                else none)
      (Article.mk "T".data "999 days ago".data
        (some "2025-01-05T13:45:00".data)) 0 = some 1736084700000 :=
  ⟨by decide,
   absolute_hint_wins _ "T".data "999 days ago".data "2025-01-05T13:45:00".data
     1736084700000 0 (by decide)⟩

/--
"No violation along this chain": every adjacent pair whose two instants are
both parsable is non-increasing; pairs with an unparsable side impose no
constraint (they are skipped by the scan).
-/
def chainOk : Detail → List Detail → Bool
  | _, [] => true
  | prev, curr :: rest =>
    (match prev.timestamp, curr.timestamp with
     | some p, some c => decide (c ≤ p)
     | _, _ => true) && chainOk curr rest

/-- `chainOk` starting from the head of the list (vacuous for short lists). -/
def chainOkList : List Detail → Bool
  | [] => true
  | d :: ds => chainOk d ds

theorem sortScan_hit {a b : Detail} {ta tb : Int} (rest : List Detail)
    (ha : a.timestamp = some ta) (hb : b.timestamp = some tb) (hlt : ta < tb) :
    ∀ (mid : List Detail) (prev : Detail),
      chainOk prev (mid ++ [a]) = true →
      sortScan prev (mid ++ a :: b :: rest) = [orderingMsg a b] := by
  have hbase : sortScan a (b :: rest) = [orderingMsg a b] := by
    rw [sortScan, ha, hb]
    simp [hlt]
  intro mid
  induction mid with
  | nil =>
    intro prev hok
    simp only [List.nil_append] at hok ⊢
    rw [chainOk] at hok
    rw [sortScan]
    cases hp : prev.timestamp with
    | none =>
      simp only [hp, ha]
      exact hbase
    | some p =>
      rw [hp, ha] at hok
      simp only [Bool.and_eq_true, decide_eq_true_eq] at hok
      simp only [hp, ha, if_neg (not_lt.mpr hok.1)]
      exact hbase
  | cons mcur mrest ih =>
    intro prev hok
    rw [List.cons_append] at hok ⊢
    rw [chainOk, Bool.and_eq_true] at hok
    obtain ⟨h1, h2⟩ := hok
    rw [sortScan]
    cases hp : prev.timestamp with
    | none =>
      simp only [hp]
      exact ih mcur h2
    | some p =>
      cases hc : mcur.timestamp with
      | none =>
        simp only [hp, hc]
        exact ih mcur h2
      | some c =>
        rw [hp, hc] at h1
        simp only [decide_eq_true_eq] at h1
        simp only [hp, hc, if_neg (not_lt.mpr h1)]
        exact ih mcur h2

/--
C3: for every sequence of normalized items whose prefix up to the item `a`
contains no adjacent violation among parsable pairs (unparsable sides are
skipped without terminating the scan), if the adjacent pair `a, b` is a
strict inversion (`a`'s instant < `b`'s instant), the ordering check reports
exactly one problem — the message naming both positions, titles and age
texts — and the result does not depend on anything after `b` (`rest` is
universally quantified), i.e. no pair past the first violation is evaluated.
-/
theorem single_inversion_single_problem (pre : List Detail) (a b : Detail)
    (rest : List Detail) (ta tb : Int)
    (ha : a.timestamp = some ta) (hb : b.timestamp = some tb) (hlt : ta < tb)
    (hpre : chainOkList (pre ++ [a]) = true) :
    checkSortedNewestToOldest (pre ++ a :: b :: rest) =
      CheckResult.mk false [orderingMsg a b] := by
  cases pre with
  | nil =>
    have hbase : sortScan a (b :: rest) = [orderingMsg a b] := by
      rw [sortScan, ha, hb]
      simp [hlt]
    simp only [List.nil_append, checkSortedNewestToOldest, hbase]
    rfl
  | cons p ps =>
    rw [List.cons_append, chainOkList] at hpre
    have h := sortScan_hit rest ha hb hlt ps p hpre
    simp only [List.cons_append, checkSortedNewestToOldest, h]
    rfl

/--
Witness for C3: a four-item prefix containing an unparsable item (skipped,
scan continues), one strict inversion at positions 3 and 4, and a later
second inversion that is not reported because the scan stops at the first.
-/
theorem single_inversion_single_problem_witness :
    (Detail.mk 3 "C".data "3 minutes ago".data none (some 40)).timestamp
        = some 40 ∧
    (Detail.mk 4 "D".data "1 minute ago".data none (some 60)).timestamp
        = some 60 ∧
    chainOkList
      ([Detail.mk 1 "A".data "1 minute ago".data none (some 100),
        Detail.mk 2 "B".data "oops".data none none] ++
        [Detail.mk 3 "C".data "3 minutes ago".data none (some 40)]) = true ∧
    checkSortedNewestToOldest
      ([Detail.mk 1 "A".data "1 minute ago".data none (some 100),
        Detail.mk 2 "B".data "oops".data none none] ++
        Detail.mk 3 "C".data "3 minutes ago".data none (some 40) ::
        Detail.mk 4 "D".data "1 minute ago".data none (some 60) ::
        [Detail.mk 5 "E".data "9 minutes ago".data none (some 10),
         Detail.mk 6 "F".data "8 minutes ago".data none (some 99)]) =
      CheckResult.mk false
        [orderingMsg (Detail.mk 3 "C".data "3 minutes ago".data none (some 40))
          (Detail.mk 4 "D".data "1 minute ago".data none (some 60))] :=
  ⟨rfl, rfl, by decide,
   single_inversion_single_problem _ _ _ _ 40 60 rfl rfl (by decide)
     (by decide)⟩


theorem validateArticles_decomposition (dateParse : List Char → Option Int)
    (articles : List Article) (nowMs : Int) :
    (validateArticles dateParse articles nowMs).problems =
      (checkTimestampsParsable
        (enrichArticlesWithTimestamps dateParse articles nowMs)).problems ++
      (checkSortedNewestToOldest
        (enrichArticlesWithTimestamps dateParse articles nowMs)).problems ∧
    ((validateArticles dateParse articles nowMs).isSorted = true ↔
      (checkTimestampsParsable
        (enrichArticlesWithTimestamps dateParse articles nowMs)).problems = []
      ∧ (checkSortedNewestToOldest
        (enrichArticlesWithTimestamps dateParse articles nowMs)).problems
          = []) := by
  constructor
  · rfl
  · have hok1 : ∀ ds : List Detail,
        (checkTimestampsParsable ds).ok =
          (checkTimestampsParsable ds).problems.isEmpty := fun _ => rfl
    have hok2 : ∀ ds : List Detail,
        (checkSortedNewestToOldest ds).ok =
          (checkSortedNewestToOldest ds).problems.isEmpty := fun _ => rfl
    have hiso : (validateArticles dateParse articles nowMs).isSorted =
        ((checkTimestampsParsable
          (enrichArticlesWithTimestamps dateParse articles nowMs)).ok &&
         (checkSortedNewestToOldest
          (enrichArticlesWithTimestamps dateParse articles nowMs)).ok) := rfl
    rw [hiso, hok1, hok2, Bool.and_eq_true, List.isEmpty_iff,
      List.isEmpty_iff]

/--
C4: for every article list and reference time, the validator's problem list
is the concatenation of the parseability problems followed by the ordering
problems (so both checks run, neither short-circuits the other), and
`isSorted` (the `passed` flag) is true exactly when there are no
parseability problems and no ordering problem.
-/
theorem validate_runs_both_checks (dateParse : List Char → Option Int)
    (articles : List Article) (nowMs : Int) :
    (validateArticles dateParse articles nowMs).problems =
      (checkTimestampsParsable
        (enrichArticlesWithTimestamps dateParse articles nowMs)).problems ++
      (checkSortedNewestToOldest
        (enrichArticlesWithTimestamps dateParse articles nowMs)).problems ∧
    ((validateArticles dateParse articles nowMs).isSorted = true ↔
      (checkTimestampsParsable
        (enrichArticlesWithTimestamps dateParse articles nowMs)).problems = []
      ∧ (checkSortedNewestToOldest
        (enrichArticlesWithTimestamps dateParse articles nowMs)).problems
          = []) :=
  validateArticles_decomposition dateParse articles nowMs

theorem parsable_no_problems (details : List Detail)
    (h : ∀ d ∈ details, d.timestamp ≠ none) :
    (checkTimestampsParsable details).problems = [] := by
  show details.filterMap _ = []
  rw [List.filterMap_eq_nil_iff]
  intro d hd
  cases ht : d.timestamp with
  | none => exact absurd ht (h d hd)
  | some t => rfl

theorem chainOk_scan_empty :
    ∀ (rest : List Detail) (prev : Detail),
      chainOk prev rest = true → sortScan prev rest = [] := by
  intro rest
  induction rest with
  | nil => intro prev _; rfl
  | cons curr rest ih =>
    intro prev hok
    rw [chainOk, Bool.and_eq_true] at hok
    obtain ⟨h1, h2⟩ := hok
    rw [sortScan]
    cases hp : prev.timestamp with
    | none =>
      simp only [hp]
      exact ih curr h2
    | some p =>
      cases hc : curr.timestamp with
      | none =>
        simp only [hp, hc]
        exact ih curr h2
      | some c =>
        rw [hp, hc] at h1
        simp only [decide_eq_true_eq] at h1
        simp only [hp, hc, if_neg (not_lt.mpr h1)]
        exact ih curr h2

/--
C5: for every article list whose enriched sequence has all instants parsable
and non-increasing in position order (equal adjacent instants allowed), the
validator passes with an empty problem list.
-/
theorem sorted_sequence_passes (dateParse : List Char → Option Int)
    (articles : List Article) (nowMs : Int)
    (hp : ∀ d ∈ enrichArticlesWithTimestamps dateParse articles nowMs,
      d.timestamp ≠ none)
    (hs : chainOkList (enrichArticlesWithTimestamps dateParse articles nowMs)
      = true) :
    (validateArticles dateParse articles nowMs).isSorted = true ∧
    (validateArticles dateParse articles nowMs).problems = [] := by
  have h1 := parsable_no_problems _ hp
  have h2 : (checkSortedNewestToOldest
      (enrichArticlesWithTimestamps dateParse articles nowMs)).problems
      = [] := by
    cases henr : enrichArticlesWithTimestamps dateParse articles nowMs with
    | nil => rfl
    | cons d ds =>
      rw [henr, chainOkList] at hs
      show sortScan d ds = []
      exact chainOk_scan_empty ds d hs
  obtain ⟨hcat, hiff⟩ := validateArticles_decomposition dateParse articles nowMs
  refine ⟨hiff.mpr ⟨h1, h2⟩, ?_⟩
  rw [hcat, h1, h2]
  rfl

/--
Witness for C5: three articles `"1 minute ago"`, `"2 minutes ago"`,
`"2 minutes ago"` (a duplicate instant is allowed) at `now = 1000000` are
all parsable and non-increasing, so validation passes with no problems.
-/
theorem sorted_sequence_passes_witness :
    (∀ d ∈ enrichArticlesWithTimestamps (fun _ => none)
        [Article.mk "A".data "1 minute ago".data none,
         Article.mk "B".data "2 minutes ago".data none,
         Article.mk "C".data "2 minutes ago".data none] 1000000,
      d.timestamp ≠ none) ∧
    (validateArticles (fun _ => none)
        [Article.mk "A".data "1 minute ago".data none,
         Article.mk "B".data "2 minutes ago".data none,
         Article.mk "C".data "2 minutes ago".data none] 1000000).isSorted
      = true ∧
    (validateArticles (fun _ => none)
        [Article.mk "A".data "1 minute ago".data none,
         Article.mk "B".data "2 minutes ago".data none,
         Article.mk "C".data "2 minutes ago".data none] 1000000).problems
      = [] :=
  ⟨by decide,
   (sorted_sequence_passes (fun _ => none) _ 1000000 (by decide) (by decide)).1,
   (sorted_sequence_passes (fun _ => none) _ 1000000 (by decide) (by decide)).2⟩

/--
C6: collection never returns more than `target` items — the accumulated list
is truncated to `target` (first conjunct, for every collaborator behaviour,
target and page bound); against a fake reader yielding 4 items per page with
working navigation, `target = 10` returns exactly 10 items (not 12) after 3
pages; with only 3 non-empty pages and a larger target, exhaustion returns
the 12 accumulated items without error, with `pagesVisited = 4`.
-/
theorem collect_never_exceeds_target :
    (∀ (scrape : Nat → List Article) (nav : Nat → Nat → Bool)
      (n maxPages : Nat),
      (getFirstNArticles scrape nav n maxPages).1.length ≤ n) ∧
    (getFirstNArticles
      (fun _ => List.replicate 4 (Article.mk "t".data "x".data none))
      (fun _ _ => true) 10 10).1.length = 10 ∧
    (getFirstNArticles
      (fun _ => List.replicate 4 (Article.mk "t".data "x".data none))
      (fun _ _ => true) 10 10).2 = 3 ∧
    (getFirstNArticles
      (fun k => if k < 3 then
        List.replicate 4 (Article.mk "t".data "x".data none) else [])
      (fun _ _ => true) 100 10).1.length = 12 ∧
    (getFirstNArticles
      (fun k => if k < 3 then
        List.replicate 4 (Article.mk "t".data "x".data none) else [])
      (fun _ _ => true) 100 10).2 = 4 := by
  refine ⟨?_, rfl, rfl, rfl, rfl⟩
  intro scrape nav n maxPages
  have h : (getFirstNArticles scrape nav n maxPages).1 =
      (collectGo scrape nav n maxPages (maxPages + 1) 0 []).1.take n := rfl
  rw [h, List.length_take]
  exact min_le_left _ _

theorem withRetry_two_failures (fn : Nat → Except (List Char) Unit)
    (e1 e2 : List Char) (h1 : fn 1 = Except.error e1)
    (h2 : fn 2 = Except.error e2) :
    withRetry fn 2 =
      Except.error "[Retry] operation failed after all attempts".data := by
  show withRetryGo fn 1 2 = _
  rw [show (2 : Nat) = 1 + 1 from rfl, withRetryGo, h1]
  rw [withRetryGo, h2]
  rfl

theorem withRetry_first_success (fn : Nat → Except (List Char) Unit)
    (h1 : fn 1 = Except.ok ()) : withRetry fn 2 = Except.ok () := by
  show withRetryGo fn 1 2 = _
  rw [show (2 : Nat) = 1 + 1 from rfl, withRetryGo, h1]

/--
C7: if the page-advance operation fails on both of its 2 bounded retry
attempts, collection stops gracefully and returns the items accumulated so
far (first conjunct: first page read, both navigation attempts fail, the
page's items are returned with `pagesVisited = 1`); likewise a page yielding
zero items terminates pagination and returns the accumulator (second
conjunct: first page read, navigation succeeds, second page is empty, the
first page's items are returned with `pagesVisited = 2`).
-/
theorem advancer_failure_stops_gracefully
    (scrape : Nat → List Article) (nav : Nat → Nat → Bool) (n maxPages : Nat) :
    (scrape 0 ≠ [] → (scrape 0).length < n → nav 0 1 = false →
      nav 0 2 = false → 1 ≤ maxPages →
      getFirstNArticles scrape nav n maxPages = (scrape 0, 1)) ∧
    (scrape 0 ≠ [] → (scrape 0).length < n → nav 0 1 = true →
      scrape 1 = [] → 2 ≤ maxPages →
      getFirstNArticles scrape nav n maxPages = (scrape 0, 2)) := by
  constructor
  · intro h0 hlen hn1 hn2 hmax
    have h0n : (0 : Nat) < n := lt_of_le_of_lt (Nat.zero_le _) hlen
    have hne : ¬ (scrape 0).length = 0 := by
      simpa [List.length_eq_zero] using h0
    have hnle : ¬ n ≤ (scrape 0).length := not_le.mpr hlen
    have hmp : ¬ maxPages < 0 + 1 := by omega
    have hretry := withRetry_two_failures
      (fun i => if nav 0 i then Except.ok ()
                else Except.error "pagination navigation failed".data)
      "pagination navigation failed".data "pagination navigation failed".data
      (by simp [hn1]) (by simp [hn2])
    unfold getFirstNArticles
    obtain ⟨mp, rfl⟩ : ∃ mp, maxPages = mp + 1 := ⟨maxPages - 1, by omega⟩
    rw [show mp + 1 + 1 = (mp + 1) + 1 from rfl, collectGo]
    simp only [List.length_nil, h0n, if_true, hmp, if_false, hne, ite_false,
      List.nil_append, hnle, hretry]
    simp [List.take_of_length_le (le_of_lt hlen)]
  · intro h0 hlen hn1 hempty hmax
    have h0n : (0 : Nat) < n := lt_of_le_of_lt (Nat.zero_le _) hlen
    have hne : ¬ (scrape 0).length = 0 := by
      simpa [List.length_eq_zero] using h0
    have hnle : ¬ n ≤ (scrape 0).length := not_le.mpr hlen
    have hmp : ¬ maxPages < 0 + 1 := by omega
    have hmp2 : ¬ maxPages < 1 + 1 := by omega
    have hretry := withRetry_first_success
      (fun i => if nav 0 i then Except.ok ()
                else Except.error "pagination navigation failed".data)
      (by simp [hn1])
    unfold getFirstNArticles
    obtain ⟨mp, rfl⟩ : ∃ mp, maxPages = mp + 2 := ⟨maxPages - 2, by omega⟩
    rw [show mp + 2 + 1 = (mp + 2) + 1 from rfl, collectGo]
    simp only [List.length_nil, h0n, if_true, hmp, if_false, hne, ite_false,
      List.nil_append, hnle, hretry]
    rw [collectGo]
    simp only [hlen, if_true, hmp2, if_false, hempty, List.length_nil,
      ite_true]
    simp [List.take_of_length_le (le_of_lt hlen)]

/--
Witness for C7: a single 1-article page with an always-failing advancer
returns that article with `pagesVisited = 1`; a 1-article page followed by an
empty page (with a working advancer) returns that article with
`pagesVisited = 2`.
-/
theorem advancer_failure_stops_gracefully_witness :
    ([Article.mk "t".data "x".data none].length < 5 ∧
     getFirstNArticles (fun _ => [Article.mk "t".data "x".data none])
       (fun _ _ => false) 5 10 = ([Article.mk "t".data "x".data none], 1)) ∧
    getFirstNArticles
      (fun k => if k = 0 then [Article.mk "t".data "x".data none] else [])
      (fun _ _ => true) 5 10 = ([Article.mk "t".data "x".data none], 2) := by
  refine ⟨⟨by decide, ?_⟩, ?_⟩
  · exact (advancer_failure_stops_gracefully
      (fun _ => [Article.mk "t".data "x".data none]) (fun _ _ => false)
      5 10).1 (by decide) (by decide) rfl rfl (by decide)
  · have h := (advancer_failure_stops_gracefully
      (fun k => if k = 0 then [Article.mk "t".data "x".data none] else [])
      (fun _ _ => true) 5 10).2 (by decide) (by decide) rfl rfl (by decide)
    simpa using h

/--
C8: for every item whose absolute hint is absent or unparsable and whose
relative-age text is empty, or matches no `integer word` pattern at all
(`findTwo` fails, e.g. `"yesterday"`), or has the shape `N <unit> ago` with
a unit word outside the recognized table (weeks, months, years, ...),
normalization returns the unparsable marker (`none`) — and, `toTimestamp`
being a total function into `Option Int`, it never throws.
-/
theorem unknown_unit_unparsable (dateParse : List Char → Option Int)
    (a : Article) (nowMs : Int) (ds u : List Char)
    (hiso : parseIsoTimestamp dateParse a.ageISO = none)
    (htext : a.ageText = [] ∨ findTwo a.ageText = none ∨
      (a.ageText = ds ++ ' ' :: (u ++ ' ' :: "ago".data) ∧ ds ≠ [] ∧
        (∀ c ∈ ds, isDigitChar c = true) ∧ u ≠ [] ∧
        (∀ c ∈ u, isWordChar c = true) ∧
        relUnitSeconds (toLowerList u) = none)) :
    toTimestamp dateParse a nowMs = none := by
  rw [toTimestamp, hiso]
  rcases htext with h | h | ⟨ht, hds, hd, hu, hw, hm⟩
  · rw [parseRelativeAgeToTimestamp, h]
    rfl
  · rw [parseRelativeAgeToTimestamp, h]
  · rw [parseRelativeAgeToTimestamp, ht,
      findTwo_structured "ago".data hds hd hu hw]
    rw [relUnitSeconds] at hm
    by_cases h1 : listStartsWith "second".data (toLowerList u) = true
    · rw [if_pos h1] at hm
      exact Option.noConfusion hm
    · rw [if_neg h1] at hm
      by_cases h2 : listStartsWith "minute".data (toLowerList u) = true
      · rw [if_pos h2] at hm
        exact Option.noConfusion hm
      · rw [if_neg h2] at hm
        by_cases h3 : listStartsWith "hour".data (toLowerList u) = true
        · rw [if_pos h3] at hm
          exact Option.noConfusion hm
        · rw [if_neg h3] at hm
          by_cases h4 : listStartsWith "day".data (toLowerList u) = true
          · rw [if_pos h4] at hm
            exact Option.noConfusion hm
          · simp only [eq_false_of_ne_true h1, Bool.false_eq_true, if_false,
              eq_false_of_ne_true h2, eq_false_of_ne_true h3,
              eq_false_of_ne_true h4]

/--
Witness for C8: `"3 months ago"` (unrecognized unit), `"yesterday"` (no
`integer word` match at all) and the empty relative text all normalize to
the unparsable marker when no ISO hint is available.
-/
theorem unknown_unit_unparsable_witness :
    relUnitSeconds (toLowerList "months".data) = none ∧
    findTwo "yesterday".data = none ∧
    toTimestamp (fun _ => none)
      (Article.mk "T".data "3 months ago".data none) 1000000 = none ∧
    toTimestamp (fun _ => none)
      (Article.mk "T".data "yesterday".data none) 1000000 = none ∧
    toTimestamp (fun _ => none) (Article.mk "T".data [] none) 1000000
      = none :=
  ⟨by decide, by decide,
   unknown_unit_unparsable (fun _ => none)
     (Article.mk "T".data "3 months ago".data none) 1000000
     "3".data "months".data rfl
     (Or.inr (Or.inr ⟨by decide, by decide, by decide, by decide, by decide,
       by decide⟩)),
   unknown_unit_unparsable (fun _ => none)
     (Article.mk "T".data "yesterday".data none) 1000000 [] [] rfl
     (Or.inr (Or.inl (by decide))),
   unknown_unit_unparsable (fun _ => none)
     (Article.mk "T".data [] none) 1000000 [] [] rfl (Or.inl rfl)⟩

theorem foldl_max_bound (l : List Int) :
    ∀ a : Int, a ≤ l.foldl max a ∧ ∀ x ∈ l, x ≤ l.foldl max a := by
  induction l with
  | nil =>
    intro a
    exact ⟨le_refl a, by simp⟩
  | cons x l ih =>
    intro a
    have h := ih (max a x)
    refine ⟨le_trans (le_max_left a x) h.1, ?_⟩
    intro y hy
    rcases List.mem_cons.mp hy with rfl | hy'
    · exact le_trans (le_max_right a y) h.1
    · exact h.2 y hy'

theorem foldl_max_mem (l : List Int) :
    ∀ a : Int, l.foldl max a = a ∨ l.foldl max a ∈ l := by
  induction l with
  | nil =>
    intro a
    exact Or.inl rfl
  | cons x l ih =>
    intro a
    simp only [List.foldl_cons]
    rcases ih (max a x) with h | h
    · rcases max_choice a x with hm | hm
      · exact Or.inl (by rw [h, hm])
      · exact Or.inr (by rw [h, hm]; exact List.mem_cons_self x l)
    · exact Or.inr (List.mem_cons_of_mem x h)

theorem foldl_min_bound (l : List Int) :
    ∀ a : Int, l.foldl min a ≤ a ∧ ∀ x ∈ l, l.foldl min a ≤ x := by
  induction l with
  | nil =>
    intro a
    exact ⟨le_refl a, by simp⟩
  | cons x l ih =>
    intro a
    have h := ih (min a x)
    refine ⟨le_trans h.1 (min_le_left a x), ?_⟩
    intro y hy
    rcases List.mem_cons.mp hy with rfl | hy'
    · exact le_trans h.1 (min_le_right a y)
    · exact h.2 y hy'

theorem foldl_min_mem (l : List Int) :
    ∀ a : Int, l.foldl min a = a ∨ l.foldl min a ∈ l := by
  induction l with
  | nil =>
    intro a
    exact Or.inl rfl
  | cons x l ih =>
    intro a
    simp only [List.foldl_cons]
    rcases ih (min a x) with h | h
    · rcases min_choice a x with hm | hm
      · exact Or.inl (by rw [h, hm])
      · exact Or.inr (by rw [h, hm]; exact List.mem_cons_self x l)
    · exact Or.inr (List.mem_cons_of_mem x h)

/--
C9: when zero instants of the validated details are parsable (including the
empty list), the report's `statistics` field is `none` — no fabricated
statistics; when at least one instant is parsable, the statistics render the
maximum parsable instant as `newestTimestamp`, the minimum as
`oldestTimestamp`, their difference divided by `1000 * 60 * 60` (hours) as
`timeSpanHours`, and the count of unparsable entries as `unparsableCount`.
-/
theorem statistics_absent_or_extremes (isoStr : Int → List Char)
    (fixed2 : ℚ → List Char) (articles : List Article)
    (vr : ValidationResult) (startedAt finishedAt : Int) :
    ((vr.details.map fun d => d.timestamp).filterMap id = [] →
      (buildResultObject isoStr fixed2 articles vr startedAt
        finishedAt).statistics = none) ∧
    (∀ (t0 : Int) (ts : List Int),
      (vr.details.map fun d => d.timestamp).filterMap id = t0 :: ts →
      ∃ M m : Int,
        (buildResultObject isoStr fixed2 articles vr startedAt
          finishedAt).statistics =
          some (ReportStats.mk (isoStr m) (isoStr M)
            (fixed2 (((M - m : Int) : ℚ) / (1000 * 60 * 60)))
            ((vr.details.filter fun d => d.timestamp.isNone).length)) ∧
        M ∈ t0 :: ts ∧ (∀ t ∈ t0 :: ts, t ≤ M) ∧
        m ∈ t0 :: ts ∧ (∀ t ∈ t0 :: ts, m ≤ t)) := by
  constructor
  · intro h
    simp only [buildResultObject]
    rw [h]
  · intro t0 ts h
    refine ⟨ts.foldl max t0, ts.foldl min t0, ?_, ?_, ?_, ?_, ?_⟩
    · simp only [buildResultObject]
      rw [h]
    · rcases foldl_max_mem ts t0 with hm | hm
      · rw [hm]; exact List.mem_cons_self t0 ts
      · exact List.mem_cons_of_mem t0 hm
    · intro t ht
      rcases List.mem_cons.mp ht with rfl | ht'
      · exact (foldl_max_bound ts t).1
      · exact (foldl_max_bound ts t0).2 t ht'
    · rcases foldl_min_mem ts t0 with hm | hm
      · rw [hm]; exact List.mem_cons_self t0 ts
      · exact List.mem_cons_of_mem t0 hm
    · intro t ht
      rcases List.mem_cons.mp ht with rfl | ht'
      · exact (foldl_min_bound ts t).1
      · exact (foldl_min_bound ts t0).2 t ht'

/--
Witness for C9: a detail list with no parsable instant yields `statistics =
none`; a list with parsable instants 100 and 50 (and one unparsable entry)
yields statistics whose newest is the maximum 100 and oldest the minimum 50.
-/
theorem statistics_absent_or_extremes_witness :
    (((ValidationResult.mk false
        [Detail.mk 1 "A".data "x".data none none] []).details.map
        fun d => d.timestamp).filterMap id = ([] : List Int) ∧
      (buildResultObject (fun _ => []) (fun _ => []) []
        (ValidationResult.mk false
          [Detail.mk 1 "A".data "x".data none none] []) 0 0).statistics
        = none) ∧
    (((ValidationResult.mk false
        [Detail.mk 1 "A".data "x".data none (some 100),
         Detail.mk 2 "B".data "y".data none none,
         Detail.mk 3 "C".data "z".data none (some 50)] []).details.map
        fun d => d.timestamp).filterMap id = [(100 : Int), 50] ∧
      ∃ M m : Int,
        (buildResultObject (fun _ => []) (fun _ => []) []
          (ValidationResult.mk false
            [Detail.mk 1 "A".data "x".data none (some 100),
             Detail.mk 2 "B".data "y".data none none,
             Detail.mk 3 "C".data "z".data none (some 50)] []) 0
          0).statistics =
          some (ReportStats.mk ((fun (_ : Int) => ([] : List Char)) m)
            ((fun (_ : Int) => ([] : List Char)) M)
            ((fun (_ : ℚ) => ([] : List Char))
              (((M - m : Int) : ℚ) / (1000 * 60 * 60)))
            (((ValidationResult.mk false
              [Detail.mk 1 "A".data "x".data none (some 100),
               Detail.mk 2 "B".data "y".data none none,
               Detail.mk 3 "C".data "z".data none (some 50)] []).details.filter
              fun d => d.timestamp.isNone).length)) ∧
        M ∈ [(100 : Int), 50] ∧ (∀ t ∈ [(100 : Int), 50], t ≤ M) ∧
        m ∈ [(100 : Int), 50] ∧ (∀ t ∈ [(100 : Int), 50], m ≤ t)) :=
  ⟨⟨by decide,
    (statistics_absent_or_extremes (fun _ => []) (fun _ => []) []
      (ValidationResult.mk false
        [Detail.mk 1 "A".data "x".data none none] []) 0 0).1 (by decide)⟩,
   ⟨by decide,
    (statistics_absent_or_extremes (fun _ => []) (fun _ => []) []
      (ValidationResult.mk false
        [Detail.mk 1 "A".data "x".data none (some 100),
         Detail.mk 2 "B".data "y".data none none,
         Detail.mk 3 "C".data "z".data none (some 50)] []) 0 0).2 100 [50]
      (by decide)⟩⟩

/--
Counterexample for C10: for a single-article collected list, the one entry of
the report's `last3` sample has position `-1` (its `articles.length - 2 + i`
formula underflows), not the article's true 1-based position `1` — so the
claim fails for non-empty lists shorter than 3.
-/
theorem last_sample_position_cex :
    ((buildResultObject (fun _ => []) (fun _ => [])
        [Article.mk "Solo".data "1 minute ago".data none]
        (ValidationResult.mk true [] []) 0 0).sampleArticles.last3.map
      fun e => e.position) = [(-1 : Int)] ∧
    ((buildResultObject (fun _ => []) (fun _ => [])
        [Article.mk "Solo".data "1 minute ago".data none]
        (ValidationResult.mk true [] []) 0 0).sampleArticles.last3.map
      fun e => e.position) ≠ [(1 : Int)] := by
  constructor
  · decide
  · decide

/--
C10 (amended): for every collected article list with at least 3 articles,
the `i`-th entry of the report's `last3` sample is the article at overall
0-based index `articles.length - 3 + i` and carries position
`(articles.length - 3 + i) + 1`, its true 1-based position in the collected
list.
-/
theorem last_sample_positions_correct_of_three (isoStr : Int → List Char)
    (fixed2 : ℚ → List Char) (articles : List Article)
    (vr : ValidationResult) (startedAt finishedAt : Int)
    (h : 3 ≤ articles.length) :
    (buildResultObject isoStr fixed2 articles vr startedAt
      finishedAt).sampleArticles.last3 =
      (articles.drop (articles.length - 3)).mapIdx fun i a =>
        SampleEntry.mk (((articles.length - 3 + i : Nat) : Int) + 1)
          a.title a.ageText := by
  have hL : (buildResultObject isoStr fixed2 articles vr startedAt
      finishedAt).sampleArticles.last3 =
      (articles.drop (articles.length - 3)).mapIdx (fun i a =>
        SampleEntry.mk ((articles.length : Int) - 2 + (i : Int))
          a.title a.ageText) := rfl
  rw [hL]
  congr 1
  funext i a
  congr 1
  omega

/--
Witness for the amended C10: a 4-article list samples its last three
articles with positions 2, 3, 4.
-/
theorem last_sample_positions_correct_of_three_witness :
    3 ≤ ([Article.mk "a".data "w".data none, Article.mk "b".data "x".data none,
          Article.mk "c".data "y".data none,
          Article.mk "d".data "z".data none] : List Article).length ∧
    (buildResultObject (fun _ => []) (fun _ => [])
      [Article.mk "a".data "w".data none, Article.mk "b".data "x".data none,
       Article.mk "c".data "y".data none, Article.mk "d".data "z".data none]
      (ValidationResult.mk true [] []) 0 0).sampleArticles.last3 =
      (([Article.mk "a".data "w".data none, Article.mk "b".data "x".data none,
         Article.mk "c".data "y".data none,
         Article.mk "d".data "z".data none] : List Article).drop
        (([Article.mk "a".data "w".data none,
           Article.mk "b".data "x".data none,
           Article.mk "c".data "y".data none,
           Article.mk "d".data "z".data none] : List Article).length - 3)).mapIdx
        fun i a =>
          SampleEntry.mk
            (((([Article.mk "a".data "w".data none,
                 Article.mk "b".data "x".data none,
                 Article.mk "c".data "y".data none,
                 Article.mk "d".data "z".data none] : List Article).length
                - 3 + i : Nat) : Int) + 1) a.title a.ageText :=
  ⟨by decide,
   last_sample_positions_correct_of_three (fun _ => []) (fun _ => [])
     [Article.mk "a".data "w".data none, Article.mk "b".data "x".data none,
      Article.mk "c".data "y".data none, Article.mk "d".data "z".data none]
     (ValidationResult.mk true [] []) 0 0 (by decide)⟩
